import Mathlib

/-!
Shallow embedding of the cue-light transmitter/receiver core from
`src/main_app.py` (classes `TransmitterWindow`, `ReceiverWindow`,
`ChannelColumnWidget`), restricted to the protocol state the specification
talks about: per-channel status and confirmed-subscriber list, the pending
request tracker, the cue sequencer, the revert scheduler, and the receiver
confirmation handshake.  Python dictionaries keyed by the channel-id string
become association lists keyed by `Nat`; `uuid4` request ids become a fresh
`Nat` drawn from a monotone counter; UI refreshes (`update_*_display*`) are
no-ops on protocol state and are dropped; MQTT publishes and the one-shot
`QTimer.singleShot` registrations are returned as explicit output lists.
`cueNumberFloat` sort keys are modelled as `ℚ` (the program only ever
compares them).  `list.sort` (a stable sort by key) is modelled by a stable
insertion sort by the same key.
-/

namespace CueLight

/-- The four channel statuses of `main_app.py` (`"idle"`, `"standby_master"`,
`"standby_solo"`, `"go"`). -/
inductive Status where
  | idle
  | standby_master
  | standby_solo
  | go
deriving DecidableEq, Repr

/-- The Python code tests `"standby" in status`: true exactly for the two
standby statuses. -/
def Status.isStandby : Status → Bool
  | .standby_master => true
  | .standby_solo => true
  | _ => false

/-- Mutable protocol state of one entry of `self.channels_data`: the
`'status'` and `'confirmed_subscribers'` keys.  The presentation keys
(label, colors) are never mutated by the core operations and are omitted. -/
structure Chan where
  status : Status
  confirmed : List String
deriving DecidableEq, Repr

/-- One cue of `self.cues`: `id`, `cueNumberFloat` (the sort key; a float in
Python, modelled exactly as `ℚ`), `label`, `channelsInCue`.  The display
string `cueNumber` is cosmetic and omitted. -/
structure Cue where
  id : Nat
  cueNumberFloat : ℚ
  label : String
  channelsInCue : List Nat
deriving DecidableEq, Repr

/-- Constant `GO_DURATION_MS = 5000`. -/
def GO_DURATION_MS : Nat := 5000

/-- Transmitter control-plane state: `self.channels_data` (protocol part),
`self.pending_requests` (request id ↦ channel id), `self.cues`,
`self.current_cue_index`, `self.is_current_cue_armed`, plus a counter
standing for the `uuid4` generator (each issued id is the current counter
value, and the counter then increases, so ids never repeat). -/
structure TxState where
  channels : List (Nat × Chan)
  pending : List (Nat × Nat)
  cues : List Cue
  currentCueIndex : Int
  isCueArmed : Bool
  nextReq : Nat
deriving DecidableEq, Repr

/-- The protocol-relevant projection of one published channel-status payload:
target channel, `status`, the optional `request_id`, and the optional
`cueLabel`.  (The payload also carries the presentation fields and the
confirmed-subscriber list; no claim reads those.) -/
structure StatusMsg where
  channel : Nat
  status : Status
  requestId : Option Nat
  cueLabel : Option String
deriving DecidableEq, Repr

/-- Result of a transmitter operation: the new state, the status messages
published (in order), and the one-shot revert timers registered, as
`(channelId, delayMs)` pairs. -/
structure StepOut where
  st : TxState
  pubs : List StatusMsg
  timers : List (Nat × Nat)
deriving DecidableEq, Repr

/-- Dictionary read `self.channels_data.get(str(c))`. -/
def lookupChan : List (Nat × Chan) → Nat → Option Chan
  | [], _ => none
  | p :: rest, c => if p.1 = c then some p.2 else lookupChan rest c

/-- Dictionary write on one key: every entry for key `c` (a Python dict has
exactly one) has its value replaced by `f` of it. -/
def updChan (l : List (Nat × Chan)) (c : Nat) (f : Chan → Chan) :
    List (Nat × Chan) :=
  l.map (fun p => if p.1 = c then (p.1, f p.2) else p)

/-- Dictionary read `self.pending_requests.get(r)` / `r in self.pending_requests`. -/
def resolvePending : List (Nat × Nat) → Nat → Option Nat
  | [], _ => none
  | p :: rest, r => if p.1 = r then some p.2 else resolvePending rest r

/-- The cosmetic cue label attached to a status payload when a cue is
standing by (`self.cues[self.current_cue_index].get('label', '')` guarded by
`current_cue_index != -1`). -/
def cueLabelOf (st : TxState) : Option String :=
  if st.currentCueIndex ≠ -1 then
    (st.cues.get? st.currentCueIndex.toNat).map (·.label)
  else none

/-- Models `TransmitterWindow.handle_status_change(numeric_id, new_status)`
(main_app.py lines 429–454): no-op for an unknown channel id; otherwise, if
the channel is leaving the standby family (`"standby" in old` and not in
`new`), delete every pending request mapped to it; store the new status;
if the new status is a standby one, issue a fresh request id and embed it in
the payload; if `current_cue_index != -1`, attach the current cue's label
(for an out-of-range pointer Python would raise `IndexError`; the model
attaches nothing — no claim exercises that path); publish one status
message; if the new status is `go`, register a `GO_DURATION_MS` one-shot
revert timer for this channel. -/
def handle_status_change (st : TxState) (numericId : Nat)
    (newStatus : Status) : StepOut :=
  match lookupChan st.channels numericId with
  | none => ⟨st, [], []⟩
  | some ch =>
    let pending1 :=
      if ch.status.isStandby && !newStatus.isStandby then
        st.pending.filter (fun p => p.2 ≠ numericId)
      else st.pending
    let channels1 := updChan st.channels numericId
      (fun c => { c with status := newStatus })
    let issue := newStatus.isStandby
    let reqId? : Option Nat := if issue then some st.nextReq else none
    let pending2 :=
      if issue then pending1 ++ [(st.nextReq, numericId)] else pending1
    let nextReq1 := if issue then st.nextReq + 1 else st.nextReq
    let msg : StatusMsg := ⟨numericId, newStatus, reqId?, cueLabelOf st⟩
    let timers := if newStatus = .go then [(numericId, GO_DURATION_MS)] else []
    let st1 := { st with channels := channels1
                         pending := pending2
                         nextReq := nextReq1 }
    ⟨st1, [msg], timers⟩

/-- A receiver's confirmation payload `{request_id, receiver_id,
receiver_name}`. -/
structure ConfMsg where
  requestId : Nat
  receiverId : String
  receiverName : String
deriving DecidableEq, Repr

/-- Models `TransmitterWindow.on_confirmation_received` (lines 358–368): resolve
the `request_id` against `self.pending_requests`; if it resolves to a known
channel, append the sender's `receiver_name` to that channel's
`confirmed_subscribers` unless already present; otherwise change nothing. -/
def on_confirmation_received (st : TxState) (m : ConfMsg) : TxState :=
  match resolvePending st.pending m.requestId with
  | none => st
  | some channelId =>
    match lookupChan st.channels channelId with
    | none => st
    | some _ =>
      let f : Chan → Chan := fun c =>
        { c with confirmed :=
            if m.receiverName ∈ c.confirmed then c.confirmed
            else c.confirmed ++ [m.receiverName] }
      { st with channels := updChan st.channels channelId f }

/-- Models `TransmitterWindow.revert_go_to_idle` (lines 455–460): if the channel's
status is still `go` at fire time, clear its `confirmed_subscribers` and run
`handle_status_change(c, 'idle')`; otherwise do nothing. -/
def revert_go_to_idle (st : TxState) (numericId : Nat) : StepOut :=
  if (lookupChan st.channels numericId).map (·.status) = some .go then
    let chs1 := updChan st.channels numericId
      (fun c => { c with confirmed := [] })
    handle_status_change { st with channels := chs1 } numericId .idle
  else ⟨st, [], []⟩

/-- Sequencing of two operation results: state threads through, outputs
concatenate. -/
def StepOut.then (a : StepOut) (f : TxState → StepOut) : StepOut :=
  let b := f a.st
  ⟨b.st, a.pubs ++ b.pubs, a.timers ++ b.timers⟩

/-- One iteration of the `fire_master_go` loop: fire `go` on a channel
whose live status reads `standby_master`, skip it otherwise. -/
def fmgStep (acc : StepOut) (c : Nat) : StepOut :=
  if (lookupChan acc.st.channels c).map (·.status) = some .standby_master then
    acc.then (fun s => handle_status_change s c .go)
  else acc

/-- Models `TransmitterWindow.fire_master_go` (lines 461–463): for every channel
(iterated in dictionary order) whose status reads `standby_master` at that
point, run `handle_status_change(c, 'go')`. -/
def fire_master_go (st : TxState) : StepOut :=
  (st.channels.map Prod.fst).foldl fmgStep ⟨st, [], []⟩

/-- Cue order: ascending `cueNumberFloat`, the key of
`self.cues.sort(key=lambda x: float(x.get('cueNumberFloat', ...)))`. -/
def cueLE (a b : Cue) : Prop := a.cueNumberFloat ≤ b.cueNumberFloat

instance : DecidableRel cueLE := fun a b =>
  inferInstanceAs (Decidable (a.cueNumberFloat ≤ b.cueNumberFloat))

instance : IsTotal Cue cueLE := ⟨fun a b => le_total a.cueNumberFloat b.cueNumberFloat⟩

instance : IsTrans Cue cueLE := ⟨fun _ _ _ => le_trans⟩

/-- The in-place `self.cues.sort(key=...)`: a stable sort ascending by
`cueNumberFloat`. -/
def sortCues (l : List Cue) : List Cue := List.insertionSort cueLE l

/-- Models `TransmitterWindow.load_config` (lines 369–381), protocol part, applied
to the channel set and cue list read from the show document (or the
defaults): sort the cues, point at the first cue (−1 when there are none),
and force every channel to `idle` with an empty subscriber list.
`pending_requests` and the armed flag are not touched by `load_config`. -/
def load_config (chs : List (Nat × Chan)) (cs : List Cue) (st : TxState) :
    TxState :=
  let cs1 := sortCues cs
  let chs1 := chs.map (fun p => (p.1, { p.2 with status := Status.idle
                                                 confirmed := [] }))
  { st with channels := chs1
            cues := cs1
            currentCueIndex := if cs1.isEmpty then -1 else 0 }

/-- Models `TransmitterWindow.next_cue` (lines 484–489): no-op on an empty cue
list; otherwise advance the pointer, wrapping past the end to 0, and reset
the armed flag. -/
def next_cue (st : TxState) : TxState :=
  if st.cues.length = 0 then st
  else
    { st with
      currentCueIndex :=
        if st.currentCueIndex < (st.cues.length : Int) - 1 then
          st.currentCueIndex + 1
        else 0,
      isCueArmed := false }

/-- Models `TransmitterWindow.prev_cue` (lines 490–495): no-op on an empty cue
list; otherwise move the pointer back, wrapping past 0 to the last cue, and
reset the armed flag. -/
def prev_cue (st : TxState) : TxState :=
  if st.cues.length = 0 then st
  else
    { st with
      currentCueIndex :=
        if st.currentCueIndex > 0 then st.currentCueIndex - 1
        else (st.cues.length : Int) - 1,
      isCueArmed := false }

/-- One iteration of the cue `for` loops: drive status `s` on channel `c`. -/
def driveStep (s : Status) (acc : StepOut) (c : Nat) : StepOut :=
  acc.then (fun t => handle_status_change t c s)

/-- Drive one requested status to a batch of channels in turn (the `for`
loops of `arm_current_cue`, `go_current_cue`). -/
def driveAll (st : TxState) (chans : List Nat) (s : Status) : StepOut :=
  chans.foldl (driveStep s) ⟨st, [], []⟩

/-- Models `TransmitterWindow.arm_current_cue` (lines 472–477): return unless
`current_cue_index != -1` and the cue list is non-empty; otherwise drive
`standby_master` for every channel of the current cue and set the armed
flag.  (Python would raise on an out-of-range pointer when it reads
`self.cues[self.current_cue_index]`; the model returns unchanged there —
no claim exercises that path.) -/
def arm_current_cue (st : TxState) : StepOut :=
  if st.currentCueIndex = -1 ∨ st.cues.isEmpty then ⟨st, [], []⟩
  else
    match st.cues.get? st.currentCueIndex.toNat with
    | none => ⟨st, [], []⟩
    | some cue =>
      let out := driveAll st cue.channelsInCue .standby_master
      ⟨{ out.st with isCueArmed := true }, out.pubs, out.timers⟩

/-- Models `TransmitterWindow.go_current_cue` (lines 478–483): return unless armed
and the pointer is not −1; otherwise drive `go` for every channel of the
current cue, clear the armed flag, and advance to the next cue. -/
def go_current_cue (st : TxState) : StepOut :=
  if !st.isCueArmed ∨ st.currentCueIndex = -1 then ⟨st, [], []⟩
  else
    match st.cues.get? st.currentCueIndex.toNat with
    | none => ⟨st, [], []⟩
    | some cue =>
      let out := driveAll st cue.channelsInCue .go
      ⟨next_cue { out.st with isCueArmed := false }, out.pubs, out.timers⟩

/-- The "edit" branch of `handle_cue_action`: replace the first cue with a
matching `id`, if any. -/
def replaceById : List Cue → Cue → List Cue
  | [], _ => []
  | cu :: rest, c =>
    if cu.id = c.id then c :: rest else cu :: replaceById rest c

/-- The "add" branch of `TransmitterWindow.handle_cue_action`
(lines 496–510) followed by `show_cues_view → populate_table`, which
re-sorts the (aliased) cue list: append, then sort.  The cue pointer and
armed flag are not touched. -/
def cueAdd (st : TxState) (c : Cue) : TxState :=
  { st with cues := sortCues (st.cues ++ [c]) }

/-- The "edit" branch of `handle_cue_action` followed by the re-sort. -/
def cueEdit (st : TxState) (c : Cue) : TxState :=
  { st with cues := sortCues (replaceById st.cues c) }

/-- The delete branch of `handle_cue_action` followed by the re-sort. -/
def cueDelete (st : TxState) (cid : Nat) : TxState :=
  { st with cues := sortCues (st.cues.filter (fun c => c.id ≠ cid)) }

/-- Receiver protocol state (`ReceiverWindow`): the captured `request_id`
and `response_topic` of the last standby status message, the latched
`is_confirmed` flag, and the receiver's identity. -/
structure RxState where
  currentRequestId : Option Nat
  currentResponseTopic : Option String
  isConfirmed : Bool
  receiverId : String
  receiverName : String
deriving DecidableEq, Repr

/-- What `ReceiverWindow.update_display_from_data` reads from a status
payload. -/
structure StatusPayload where
  status : Status
  requestId : Option Nat
  responseTopic : Option String
deriving DecidableEq, Repr

/-- Models `ReceiverWindow.update_display_from_data` (lines 573–583), protocol
part: reset `request_id`/`response_topic`/`is_confirmed`; on a standby
status, capture the payload's `request_id` and `response_topic`. -/
def update_display_from_data (rx : RxState) (d : StatusPayload) : RxState :=
  if d.status = .standby_master ∨ d.status = .standby_solo then
    { rx with currentRequestId := d.requestId
              currentResponseTopic := d.responseTopic
              isConfirmed := false }
  else
    { rx with currentRequestId := none
              currentResponseTopic := none
              isConfirmed := false }

/-- Models `ReceiverWindow.handle_confirm_press` (lines 584–588): publish
`{request_id, receiver_id, receiver_name}` to the captured response topic
and latch `is_confirmed`, but only when a topic and a request id are
captured and `is_confirmed` is still false. -/
def handle_confirm_press (rx : RxState) : RxState × List ConfMsg :=
  match rx.currentResponseTopic, rx.currentRequestId with
  | some _, some r =>
    if rx.isConfirmed then (rx, [])
    else ({ rx with isConfirmed := true },
      [⟨r, rx.receiverId, rx.receiverName⟩])
  | _, _ => (rx, [])

/-- The named intents of the UI layer (design notes §9): the two per-channel
toggles, master GO, cue arm, cue GO, and the scheduled revert firing. -/
inductive Intent where
  | masterStandbyToggle (c : Nat)
  | soloStandby (c : Nat)
  | masterGo
  | armCue
  | goCue
  | revert (c : Nat)
deriving DecidableEq, Repr

/-- The status a channel widget reports (`ChannelColumnWidget.current_status`,
kept in sync with the store by `update_all_channel_displays`; `"idle"` for a
channel with no stored entry). -/
def widgetStatus (st : TxState) (c : Nat) : Status :=
  ((lookupChan st.channels c).map (·.status)).getD .idle

/-- One intent dispatched to the transmitter: `master_sb_clicked`
(lines 161–163) emits `idle` from `standby_master` and `standby_master`
otherwise; `solo_op_clicked` (lines 165–167) emits `go` from `standby_solo`
and `standby_solo` otherwise; the rest call the corresponding methods. -/
def intentStep (st : TxState) : Intent → StepOut
  | .masterStandbyToggle c =>
    handle_status_change st c
      (if widgetStatus st c = .standby_master then .idle else .standby_master)
  | .soloStandby c =>
    handle_status_change st c
      (if widgetStatus st c = .standby_solo then .go else .standby_solo)
  | .masterGo => fire_master_go st
  | .armCue => arm_current_cue st
  | .goCue => go_current_cue st
  | .revert c => revert_go_to_idle st c

/-- Run a sequence of intents, keeping only the state. -/
def runIntents (st : TxState) (l : List Intent) : TxState :=
  l.foldl (fun s i => (intentStep s i).st) st

/-- The stored status of channel `c`. -/
def statusOf (st : TxState) (c : Nat) : Option Status :=
  (lookupChan st.channels c).map (·.status)

/-- The stored confirmed-subscriber list of channel `c`. -/
def confirmedOf (st : TxState) (c : Nat) : Option (List String) :=
  (lookupChan st.channels c).map (·.confirmed)

/-- Sort key of the cue under the pointer, if any. -/
def currentKey (st : TxState) : Option ℚ :=
  (st.cues.get? st.currentCueIndex.toNat).map (·.cueNumberFloat)

/-- The cue list is sorted ascending by `cueNumberFloat`. -/
def cuesSorted (l : List Cue) : Prop := l.Pairwise cueLE

/-- The pointer invariant of claim C8: −1 exactly on an empty list,
otherwise in range. -/
def cueInv (st : TxState) : Prop :=
  (st.currentCueIndex = -1 ↔ st.cues = []) ∧
  (st.cues ≠ [] →
    0 ≤ st.currentCueIndex ∧ st.currentCueIndex < st.cues.length)

/-! ## Basic dictionary lemmas -/

theorem lookupChan_cons (p : Nat × Chan) (rest : List (Nat × Chan)) (c : Nat) :
    lookupChan (p :: rest) c = if p.1 = c then some p.2 else lookupChan rest c :=
  rfl

theorem updChan_cons (p : Nat × Chan) (rest : List (Nat × Chan)) (k : Nat)
    (f : Chan → Chan) :
    updChan (p :: rest) k f =
      (if p.1 = k then (p.1, f p.2) else p) :: updChan rest k f := by
  simp only [updChan, List.map_cons]

theorem lookupChan_updChan (l : List (Nat × Chan)) (k : Nat) (f : Chan → Chan)
    (c : Nat) :
    lookupChan (updChan l k f) c =
      if c = k then (lookupChan l k).map f else lookupChan l c := by
  induction l with
  | nil => simp [updChan, lookupChan]
  | cons p rest ih =>
    rw [updChan_cons]
    by_cases hpk : p.1 = k
    · by_cases hpc : p.1 = c
      · have hck : c = k := by rw [← hpc, hpk]
        rw [if_pos hpk, lookupChan_cons, if_pos hpc, if_pos hck,
          lookupChan_cons, if_pos hpk]
        rfl
      · have hck : ¬c = k := fun h => hpc (by rw [hpk, ← h])
        rw [if_pos hpk, lookupChan_cons, if_neg hpc, ih, if_neg hck,
          if_neg hck, lookupChan_cons, if_neg hpc]
    · by_cases hpc : p.1 = c
      · have hck : ¬c = k := fun h => hpk (by rw [hpc, h])
        rw [if_neg hpk, lookupChan_cons, if_pos hpc, if_neg hck,
          lookupChan_cons, if_pos hpc]
      · rw [if_neg hpk, lookupChan_cons, if_neg hpc, ih, lookupChan_cons,
          if_neg hpk, lookupChan_cons, if_neg hpc]

theorem lookupChan_mem_keys {l : List (Nat × Chan)} {c : Nat} {ch : Chan}
    (h : lookupChan l c = some ch) : c ∈ l.map Prod.fst := by
  induction l with
  | nil => simp [lookupChan] at h
  | cons p rest ih =>
    rw [lookupChan_cons] at h
    by_cases hpc : p.1 = c
    · simp [← hpc]
    · rw [if_neg hpc] at h
      simp [ih h]

theorem resolvePending_cons (p : Nat × Nat) (rest : List (Nat × Nat)) (r : Nat) :
    resolvePending (p :: rest) r =
      if p.1 = r then some p.2 else resolvePending rest r :=
  rfl

theorem resolvePending_append_left {l1 : List (Nat × Nat)} {r : Nat} {v : Nat}
    (l2 : List (Nat × Nat)) (h : resolvePending l1 r = some v) :
    resolvePending (l1 ++ l2) r = some v := by
  induction l1 with
  | nil => simp [resolvePending] at h
  | cons p rest ih =>
    rw [resolvePending_cons] at h
    by_cases hpr : p.1 = r
    · rw [if_pos hpr] at h
      simp [resolvePending_cons, hpr, h]
    · rw [if_neg hpr] at h
      simp [resolvePending_cons, hpr, ih h]

theorem resolvePending_append_right {l1 : List (Nat × Nat)} {r : Nat}
    (l2 : List (Nat × Nat)) (h : resolvePending l1 r = none) :
    resolvePending (l1 ++ l2) r = resolvePending l2 r := by
  induction l1 with
  | nil => simp
  | cons p rest ih =>
    rw [resolvePending_cons] at h
    by_cases hpr : p.1 = r
    · rw [if_pos hpr] at h; exact absurd h (by simp)
    · rw [if_neg hpr] at h
      simp [resolvePending_cons, hpr, ih h]

theorem resolvePending_filter_ne {l : List (Nat × Nat)} {c r : Nat}
    (h : ∀ p ∈ l, p.1 = r → p.2 = c) :
    resolvePending (l.filter (fun p => p.2 ≠ c)) r = none := by
  induction l with
  | nil => simp [resolvePending]
  | cons p rest ih =>
    have hrest := ih (fun q hq hqr => h q (List.mem_cons_of_mem p hq) hqr)
    by_cases hpc : p.2 = c
    · have hd : decide (p.2 ≠ c) = false := by simp [hpc]
      rw [List.filter_cons, hd]
      simpa using hrest
    · have hd : decide (p.2 ≠ c) = true := by simp [hpc]
      have hpr : ¬p.1 = r := fun hr => hpc (h p (List.mem_cons_self p rest) hr)
      rw [List.filter_cons, hd]
      simp only [if_true]
      rw [resolvePending_cons, if_neg hpr]
      exact hrest

theorem resolvePending_mem_of_some {l : List (Nat × Nat)} {r v : Nat}
    (h : resolvePending l r = some v) : (r, v) ∈ l := by
  induction l with
  | nil => simp [resolvePending] at h
  | cons p rest ih =>
    rw [resolvePending_cons] at h
    by_cases hpr : p.1 = r
    · rw [if_pos hpr] at h
      obtain ⟨a, b⟩ := p
      simp only [Option.some.injEq] at h
      simp_all
    · rw [if_neg hpr] at h
      exact List.mem_cons_of_mem p (ih h)

/-! ## `handle_status_change` component lemmas -/

theorem hsc_none {st : TxState} {c : Nat} (s : Status)
    (h : lookupChan st.channels c = none) :
    handle_status_change st c s = ⟨st, [], []⟩ := by
  simp [handle_status_change, h]

theorem hsc_channels {st : TxState} {c : Nat} {ch : Chan} (s : Status)
    (h : lookupChan st.channels c = some ch) :
    (handle_status_change st c s).st.channels =
      updChan st.channels c (fun x => { x with status := s }) := by
  simp [handle_status_change, h]

theorem hsc_pending {st : TxState} {c : Nat} {ch : Chan} (s : Status)
    (h : lookupChan st.channels c = some ch) :
    (handle_status_change st c s).st.pending =
      (if s.isStandby then
        (if ch.status.isStandby && !s.isStandby then
          st.pending.filter (fun p => p.2 ≠ c)
        else st.pending) ++ [(st.nextReq, c)]
      else
        (if ch.status.isStandby && !s.isStandby then
          st.pending.filter (fun p => p.2 ≠ c)
        else st.pending)) := by
  simp [handle_status_change, h]

theorem hsc_nextReq {st : TxState} {c : Nat} {ch : Chan} (s : Status)
    (h : lookupChan st.channels c = some ch) :
    (handle_status_change st c s).st.nextReq =
      if s.isStandby then st.nextReq + 1 else st.nextReq := by
  simp [handle_status_change, h]

theorem hsc_pubs {st : TxState} {c : Nat} {ch : Chan} (s : Status)
    (h : lookupChan st.channels c = some ch) :
    (handle_status_change st c s).pubs =
      [⟨c, s, if s.isStandby then some st.nextReq else none, cueLabelOf st⟩] := by
  simp [handle_status_change, h]

theorem hsc_timers {st : TxState} {c : Nat} {ch : Chan} (s : Status)
    (h : lookupChan st.channels c = some ch) :
    (handle_status_change st c s).timers =
      if s = .go then [(c, GO_DURATION_MS)] else [] := by
  simp [handle_status_change, h]

theorem hsc_cues (st : TxState) (c : Nat) (s : Status) :
    (handle_status_change st c s).st.cues = st.cues := by
  cases h : lookupChan st.channels c <;> simp [handle_status_change, h]

theorem hsc_index (st : TxState) (c : Nat) (s : Status) :
    (handle_status_change st c s).st.currentCueIndex = st.currentCueIndex := by
  cases h : lookupChan st.channels c <;> simp [handle_status_change, h]

theorem hsc_armed (st : TxState) (c : Nat) (s : Status) :
    (handle_status_change st c s).st.isCueArmed = st.isCueArmed := by
  cases h : lookupChan st.channels c <;> simp [handle_status_change, h]

theorem hsc_lookup_self {st : TxState} {c : Nat} {ch : Chan} (s : Status)
    (h : lookupChan st.channels c = some ch) :
    lookupChan (handle_status_change st c s).st.channels c =
      some { ch with status := s } := by
  rw [hsc_channels s h, lookupChan_updChan]
  simp [h]

theorem hsc_lookup_other {st : TxState} {c c' : Nat} (s : Status)
    (hne : c' ≠ c) :
    lookupChan (handle_status_change st c s).st.channels c' =
      lookupChan st.channels c' := by
  cases h : lookupChan st.channels c with
  | none => rw [hsc_none s h]
  | some ch =>
    rw [hsc_channels s h, lookupChan_updChan, if_neg hne]

/-! ## Lemmas about the `fire_master_go` and cue-batch loops -/

theorem StepOut_then_st (a : StepOut) (f : TxState → StepOut) :
    (StepOut.then a f).st = (f a.st).st :=
  rfl

theorem fmg_fold_lookup (ks : List Nat) (acc : StepOut) (c : Nat) (ch : Chan)
    (h : lookupChan acc.st.channels c = some ch) :
    lookupChan (ks.foldl fmgStep acc).st.channels c =
      some (if ch.status = .standby_master ∧ c ∈ ks then
        { ch with status := .go } else ch) := by
  induction ks generalizing acc ch with
  | nil => simpa using h
  | cons k rest ih =>
    rw [List.foldl_cons]
    by_cases hck : c = k
    · subst hck
      by_cases hsm : ch.status = .standby_master
      · have hg : (lookupChan acc.st.channels c).map (·.status)
            = some .standby_master := by rw [h]; simp [hsm]
        have hstep : fmgStep acc c
            = StepOut.then acc (fun s => handle_status_change s c .go) := by
          rw [fmgStep, if_pos hg]
        have h2 : lookupChan (fmgStep acc c).st.channels c
            = some { ch with status := .go } := by
          rw [hstep, StepOut_then_st]
          exact hsc_lookup_self .go h
        rw [ih _ _ h2]
        simp [hsm]
      · have hg : ¬(lookupChan acc.st.channels c).map (·.status)
            = some .standby_master := by rw [h]; simp [hsm]
        have hstep : fmgStep acc c = acc := by rw [fmgStep, if_neg hg]
        rw [hstep, ih _ _ h]
        simp [hsm]
    · have h2 : lookupChan (fmgStep acc k).st.channels c = some ch := by
        rw [fmgStep]
        by_cases hg : (lookupChan acc.st.channels k).map (·.status)
            = some .standby_master
        · rw [if_pos hg, StepOut_then_st, hsc_lookup_other .go hck]
          exact h
        · rw [if_neg hg]; exact h
      rw [ih _ _ h2]
      simp [List.mem_cons, hck]

theorem fire_master_go_lookup (st : TxState) (c : Nat) (ch : Chan)
    (h : lookupChan st.channels c = some ch) :
    lookupChan (fire_master_go st).st.channels c =
      some (if ch.status = .standby_master then { ch with status := .go }
        else ch) := by
  have hmem : c ∈ st.channels.map Prod.fst := lookupChan_mem_keys h
  rw [fire_master_go, fmg_fold_lookup (st.channels.map Prod.fst) ⟨st, [], []⟩ c ch h]
  by_cases hsm : ch.status = .standby_master <;> simp [hsm, hmem]

theorem drive_fold_lookup (s : Status) (ks : List Nat) (acc : StepOut)
    (c : Nat) (ch : Chan) (h : lookupChan acc.st.channels c = some ch) :
    lookupChan (ks.foldl (driveStep s) acc).st.channels c =
      some (if c ∈ ks then { ch with status := s } else ch) := by
  induction ks generalizing acc ch with
  | nil => simpa using h
  | cons k rest ih =>
    rw [List.foldl_cons]
    by_cases hck : c = k
    · subst hck
      have h2 : lookupChan (driveStep s acc c).st.channels c
          = some { ch with status := s } := by
        rw [driveStep, StepOut_then_st]
        exact hsc_lookup_self s h
      rw [ih _ _ h2]
      by_cases hm : c ∈ rest <;> simp [hm]
    · have h2 : lookupChan (driveStep s acc k).st.channels c = some ch := by
        rw [driveStep, StepOut_then_st, hsc_lookup_other s hck]
        exact h
      rw [ih _ _ h2]
      simp [List.mem_cons, hck]

theorem drive_fold_cues (s : Status) (ks : List Nat) (acc : StepOut) :
    (ks.foldl (driveStep s) acc).st.cues = acc.st.cues := by
  induction ks generalizing acc with
  | nil => rfl
  | cons k rest ih =>
    rw [List.foldl_cons, ih]
    rw [driveStep, StepOut_then_st, hsc_cues]

theorem drive_fold_index (s : Status) (ks : List Nat) (acc : StepOut) :
    (ks.foldl (driveStep s) acc).st.currentCueIndex =
      acc.st.currentCueIndex := by
  induction ks generalizing acc with
  | nil => rfl
  | cons k rest ih =>
    rw [List.foldl_cons, ih]
    rw [driveStep, StepOut_then_st, hsc_index]

/-! ## Lemmas about confirmation resolution -/

theorem resolvePending_none_of_forall {l : List (Nat × Nat)} {r : Nat}
    (h : ∀ p ∈ l, p.1 ≠ r) : resolvePending l r = none := by
  induction l with
  | nil => rfl
  | cons p rest ih =>
    rw [resolvePending_cons, if_neg (h p (List.mem_cons_self p rest))]
    exact ih (fun q hq => h q (List.mem_cons_of_mem p hq))

theorem onconf_none {st : TxState} {m : ConfMsg}
    (h : resolvePending st.pending m.requestId = none) :
    on_confirmation_received st m = st := by
  simp [on_confirmation_received, h]

theorem onconf_missing {st : TxState} {m : ConfMsg} {c : Nat}
    (hres : resolvePending st.pending m.requestId = some c)
    (hch : lookupChan st.channels c = none) :
    on_confirmation_received st m = st := by
  simp [on_confirmation_received, hres, hch]

theorem onconf_eq {st : TxState} {c : Nat} {ch : Chan} {m : ConfMsg}
    (hres : resolvePending st.pending m.requestId = some c)
    (hch : lookupChan st.channels c = some ch) :
    on_confirmation_received st m =
      { st with channels := updChan st.channels c (fun x =>
          { x with confirmed :=
              if m.receiverName ∈ x.confirmed then x.confirmed
              else x.confirmed ++ [m.receiverName] }) } := by
  simp [on_confirmation_received, hres, hch]

theorem mem_appendIfAbsent (a : String) (l : List String) :
    a ∈ (if a ∈ l then l else l ++ [a]) := by
  by_cases h : a ∈ l <;> simp [h]

theorem mem_appendIfAbsent_of_mem {a : String} (b : String) {l : List String}
    (h : a ∈ l) : a ∈ (if b ∈ l then l else l ++ [b]) := by
  by_cases hb : b ∈ l
  · rw [if_pos hb]; exact h
  · rw [if_neg hb]; exact List.mem_append_left _ h

/-! ## Lemmas about the cue list -/

theorem sortCues_sorted (l : List Cue) : cuesSorted (sortCues l) :=
  List.sorted_insertionSort cueLE l

theorem sortCues_length (l : List Cue) : (sortCues l).length = l.length :=
  (List.perm_insertionSort cueLE l).length_eq

theorem sortCues_eq_nil_iff (l : List Cue) : sortCues l = [] ↔ l = [] := by
  constructor
  · intro h
    have := sortCues_length l
    rw [h] at this
    exact List.length_eq_zero.mp this.symm
  · intro h
    subst h
    rfl

theorem replaceById_length (l : List Cue) (c : Cue) :
    (replaceById l c).length = l.length := by
  induction l with
  | nil => rfl
  | cons cu rest ih =>
    rw [replaceById]
    by_cases h : cu.id = c.id
    · rw [if_pos h]
      simp
    · rw [if_neg h]
      simp [ih]

theorem cueInv_of_eq {st1 st2 : TxState} (hc : st1.cues = st2.cues)
    (hi : st1.currentCueIndex = st2.currentCueIndex) (h : cueInv st2) :
    cueInv st1 := by
  unfold cueInv at *
  rw [hc, hi]
  exact h

theorem cueInv_load (chs : List (Nat × Chan)) (cs : List Cue) (st : TxState) :
    cueInv (load_config chs cs st) := by
  have hc : (load_config chs cs st).cues = sortCues cs := rfl
  have hi : (load_config chs cs st).currentCueIndex =
      if (sortCues cs).isEmpty then -1 else 0 := rfl
  unfold cueInv
  rw [hc, hi]
  by_cases h : (sortCues cs).isEmpty
  · have hnil : sortCues cs = [] := List.isEmpty_iff.mp h
    simp [h, hnil]
  · have hnil : ¬sortCues cs = [] := fun hn => h (by simp [hn])
    have hlen : 0 < (sortCues cs).length := List.length_pos.mpr hnil
    rw [if_neg h]
    refine ⟨⟨fun h0 => absurd h0 (by decide), fun hn => absurd hn hnil⟩, ?_⟩
    intro _
    exact ⟨le_refl 0, by exact_mod_cast hlen⟩

theorem cueInv_next {st : TxState} (h : cueInv st) : cueInv (next_cue st) := by
  unfold cueInv next_cue at *
  by_cases hlen : st.cues.length = 0
  · rw [if_pos hlen]
    exact h
  · have hne : st.cues ≠ [] := fun hn => hlen (by simp [hn])
    have hpos : 0 < st.cues.length := Nat.pos_of_ne_zero hlen
    obtain ⟨h1, h2⟩ := h
    obtain ⟨hlo, hhi⟩ := h2 hne
    rw [if_neg hlen]
    dsimp only
    refine ⟨⟨?_, fun hn => absurd hn hne⟩, ?_⟩
    · intro hix
      by_cases hb : st.currentCueIndex < (st.cues.length : Int) - 1
      · rw [if_pos hb] at hix; omega
      · rw [if_neg hb] at hix; omega
    · intro _
      by_cases hb : st.currentCueIndex < (st.cues.length : Int) - 1
      · rw [if_pos hb]; omega
      · rw [if_neg hb]; omega

theorem cueInv_prev {st : TxState} (h : cueInv st) : cueInv (prev_cue st) := by
  unfold cueInv prev_cue at *
  by_cases hlen : st.cues.length = 0
  · rw [if_pos hlen]
    exact h
  · have hne : st.cues ≠ [] := fun hn => hlen (by simp [hn])
    have hpos : 0 < st.cues.length := Nat.pos_of_ne_zero hlen
    obtain ⟨h1, h2⟩ := h
    obtain ⟨hlo, hhi⟩ := h2 hne
    rw [if_neg hlen]
    dsimp only
    refine ⟨⟨?_, fun hn => absurd hn hne⟩, ?_⟩
    · intro hix
      by_cases hb : st.currentCueIndex > 0
      · rw [if_pos hb] at hix; omega
      · rw [if_neg hb] at hix; omega
    · intro _
      by_cases hb : st.currentCueIndex > 0
      · rw [if_pos hb]; omega
      · rw [if_neg hb]; omega

theorem cueInv_go {st : TxState} (h : cueInv st) :
    cueInv (go_current_cue st).st := by
  unfold go_current_cue
  by_cases hg : (!st.isCueArmed) = true ∨ st.currentCueIndex = -1
  · rw [if_pos hg]
    exact h
  · rw [if_neg hg]
    cases hget : st.cues.get? st.currentCueIndex.toNat with
    | none => exact h
    | some cue =>
      simp only
      apply cueInv_next
      refine cueInv_of_eq ?_ ?_ h
      · exact drive_fold_cues .go cue.channelsInCue ⟨st, [], []⟩
      · exact drive_fold_index .go cue.channelsInCue ⟨st, [], []⟩

theorem cueEdit_inv {st : TxState} (c : Cue) (h : cueInv st) :
    cueInv (cueEdit st c) := by
  unfold cueInv cueEdit at *
  simp only
  have hlen : (sortCues (replaceById st.cues c)).length = st.cues.length := by
    rw [sortCues_length, replaceById_length]
  obtain ⟨h1, h2⟩ := h
  constructor
  · rw [h1]
    constructor
    · intro hnil
      apply List.length_eq_zero.mp
      rw [hlen, hnil]
      rfl
    · intro hnil
      apply List.length_eq_zero.mp
      rw [← hlen, hnil]
      rfl
  · intro hne
    have : st.cues ≠ [] := by
      intro hn
      apply hne
      apply List.length_eq_zero.mp
      rw [hlen, List.length_eq_zero.mpr hn]
    obtain ⟨hlo, hhi⟩ := h2 this
    rw [hlen]
    exact ⟨hlo, hhi⟩

/-! ## Claim theorems -/

/-- C5: after a "master GO" intent, every channel whose status was exactly
`StandbyMaster` is in `Go` (its confirmed-subscriber list untouched), and
every channel that was `StandbySolo` or `Idle` is completely unchanged. -/
theorem master_go_c5 (st : TxState) (c : Nat) (ch : Chan)
    (h : lookupChan st.channels c = some ch) :
    (ch.status = .standby_master →
      lookupChan (fire_master_go st).st.channels c =
        some { ch with status := .go }) ∧
    (ch.status = .standby_solo ∨ ch.status = .idle →
      lookupChan (fire_master_go st).st.channels c = some ch) := by
  constructor
  · intro hsm
    rw [fire_master_go_lookup st c ch h, if_pos hsm]
  · intro hso
    have hsm : ¬ch.status = .standby_master := by
      rcases hso with h1 | h1 <;> simp [h1]
    rw [fire_master_go_lookup st c ch h, if_neg hsm]

/-- Witness for C5: the spec's own scenario `{1: StandbyMaster,
2: StandbySolo, 3: Idle} → {1: Go, 2: StandbySolo, 3: Idle}`. -/
theorem master_go_c5_witness :
    lookupChan (fire_master_go ⟨[(1, ⟨.standby_master, []⟩),
        (2, ⟨.standby_solo, []⟩), (3, ⟨.idle, []⟩)], [], [], -1, false,
        0⟩).st.channels 1 = some ⟨.go, []⟩ ∧
    lookupChan (fire_master_go ⟨[(1, ⟨.standby_master, []⟩),
        (2, ⟨.standby_solo, []⟩), (3, ⟨.idle, []⟩)], [], [], -1, false,
        0⟩).st.channels 2 = some ⟨.standby_solo, []⟩ ∧
    lookupChan (fire_master_go ⟨[(1, ⟨.standby_master, []⟩),
        (2, ⟨.standby_solo, []⟩), (3, ⟨.idle, []⟩)], [], [], -1, false,
        0⟩).st.channels 3 = some ⟨.idle, []⟩ := by
  refine ⟨?_, ?_, ?_⟩
  · exact (master_go_c5 _ 1 ⟨.standby_master, []⟩ (by decide)).1 rfl
  · exact (master_go_c5 _ 2 ⟨.standby_solo, []⟩ (by decide)).2 (Or.inl rfl)
  · exact (master_go_c5 _ 3 ⟨.idle, []⟩ (by decide)).2 (Or.inr rfl)

/-- C6: an inbound confirmation with request id `r` mutates at most the
channel that `r` resolves to, and there only the confirmed-subscriber list
(appending the sender's name if it is absent); every other channel, and all
other transmitter state, is unchanged; an unknown or revoked id changes
nothing at all. -/
theorem confirmation_frame_c6 (st : TxState) (r : Nat) (i n : String) :
    (resolvePending st.pending r = none →
      on_confirmation_received st ⟨r, i, n⟩ = st) ∧
    (∀ c, resolvePending st.pending r = some c →
      (∀ c', c' ≠ c →
        lookupChan (on_confirmation_received st ⟨r, i, n⟩).channels c' =
          lookupChan st.channels c') ∧
      (on_confirmation_received st ⟨r, i, n⟩).pending = st.pending ∧
      (on_confirmation_received st ⟨r, i, n⟩).cues = st.cues ∧
      (on_confirmation_received st ⟨r, i, n⟩).currentCueIndex =
        st.currentCueIndex ∧
      (on_confirmation_received st ⟨r, i, n⟩).isCueArmed = st.isCueArmed ∧
      (lookupChan st.channels c = none →
        on_confirmation_received st ⟨r, i, n⟩ = st) ∧
      (∀ ch, lookupChan st.channels c = some ch →
        lookupChan (on_confirmation_received st ⟨r, i, n⟩).channels c =
          some { ch with confirmed :=
            if n ∈ ch.confirmed then ch.confirmed
            else ch.confirmed ++ [n] })) := by
  constructor
  · intro h
    exact onconf_none h
  · intro c hres
    cases hch : lookupChan st.channels c with
    | none =>
      rw [onconf_missing hres hch]
      exact ⟨fun _ _ => rfl, rfl, rfl, rfl, rfl, fun _ => rfl,
        fun ch hc => absurd hc (by simp [hch])⟩
    | some ch =>
      rw [onconf_eq hres hch]
      dsimp only
      refine ⟨?_, rfl, rfl, rfl, rfl, fun hc => absurd hc (by simp [hch]), ?_⟩
      · intro c' hne
        rw [lookupChan_updChan, if_neg hne]
      · intro ch' hch'
        have hee : ch' = ch := (Option.some.inj hch').symm
        subst hee
        rw [lookupChan_updChan, if_pos rfl, hch]
        rfl

/-- Witness for C6: a resolved confirmation touches only channel 1's list;
an unknown id leaves the state fixed. -/
theorem confirmation_frame_c6_witness :
    on_confirmation_received ⟨[(1, ⟨.standby_master, []⟩),
        (2, ⟨.idle, []⟩)], [(5, 1)], [], -1, false, 6⟩ ⟨9, "id", "Rx"⟩ =
      ⟨[(1, ⟨.standby_master, []⟩), (2, ⟨.idle, []⟩)], [(5, 1)], [], -1,
        false, 6⟩ ∧
    lookupChan (on_confirmation_received ⟨[(1, ⟨.standby_master, []⟩),
        (2, ⟨.idle, []⟩)], [(5, 1)], [], -1, false, 6⟩
        ⟨5, "id", "Rx"⟩).channels 2 = some ⟨.idle, []⟩ ∧
    lookupChan (on_confirmation_received ⟨[(1, ⟨.standby_master, []⟩),
        (2, ⟨.idle, []⟩)], [(5, 1)], [], -1, false, 6⟩
        ⟨5, "id", "Rx"⟩).channels 1 = some ⟨.standby_master, ["Rx"]⟩ := by
  refine ⟨?_, ?_, ?_⟩
  · exact (confirmation_frame_c6 ⟨[(1, ⟨.standby_master, []⟩),
      (2, ⟨.idle, []⟩)], [(5, 1)], [], -1, false, 6⟩ 9 "id" "Rx").1 (by decide)
  · exact ((confirmation_frame_c6 ⟨[(1, ⟨.standby_master, []⟩),
      (2, ⟨.idle, []⟩)], [(5, 1)], [], -1, false, 6⟩ 5 "id" "Rx").2 1
      (by decide)).1 2 (by decide)
  · have h := ((confirmation_frame_c6 ⟨[(1, ⟨.standby_master, []⟩),
      (2, ⟨.idle, []⟩)], [(5, 1)], [], -1, false, 6⟩ 5 "id" "Rx").2 1
      (by decide)).2.2.2.2.2.2 ⟨.standby_master, []⟩ (by decide)
    simpa using h

/-- C2: when a channel leaves the standby family (to any non-standby
status), every pending request mapped to it is revoked by that very
transition, and a confirmation arriving afterwards with a request id that
had been issued for that channel is dropped without changing any state. -/
theorem standby_exit_revokes_c2 (st : TxState) (c : Nat) (ch : Chan)
    (s' : Status) (r : Nat)
    (hch : lookupChan st.channels c = some ch)
    (hold : ch.status.isStandby = true)
    (hnew : s'.isStandby = false)
    (hres : resolvePending st.pending r = some c)
    (huniq : ∀ p ∈ st.pending, p.1 = r → p.2 = c) :
    (∀ p ∈ (handle_status_change st c s').st.pending, p.2 ≠ c) ∧
    resolvePending (handle_status_change st c s').st.pending r = none ∧
    (∀ i n,
      on_confirmation_received (handle_status_change st c s').st ⟨r, i, n⟩ =
        (handle_status_change st c s').st) := by
  have hpend : (handle_status_change st c s').st.pending =
      st.pending.filter (fun p => p.2 ≠ c) := by
    rw [hsc_pending s' hch, hold, hnew]
    simp
  have hnone : resolvePending (handle_status_change st c s').st.pending r
      = none := by
    rw [hpend]
    exact resolvePending_filter_ne huniq
  refine ⟨?_, hnone, ?_⟩
  · intro p hp
    rw [hpend] at hp
    have := (List.mem_filter.mp hp).2
    simpa using this
  · intro i n
    exact onconf_none hnone

/-- Witness for C2: channel 1 leaves `StandbyMaster` for `Go`; its pending
request 7 is gone and a late confirmation for 7 is a no-op. -/
theorem standby_exit_revokes_c2_witness :
    resolvePending (handle_status_change ⟨[(1, ⟨.standby_master, []⟩)],
      [(7, 1)], [], -1, false, 8⟩ 1 .go).st.pending 7 = none ∧
    on_confirmation_received (handle_status_change
      ⟨[(1, ⟨.standby_master, []⟩)], [(7, 1)], [], -1, false, 8⟩ 1 .go).st
      ⟨7, "id", "Rx"⟩ =
      (handle_status_change ⟨[(1, ⟨.standby_master, []⟩)], [(7, 1)], [], -1,
        false, 8⟩ 1 .go).st := by
  constructor
  · exact (standby_exit_revokes_c2 ⟨[(1, ⟨.standby_master, []⟩)], [(7, 1)],
      [], -1, false, 8⟩ 1 ⟨.standby_master, []⟩ .go 7 (by decide) (by decide)
      (by decide) (by decide) (by decide)).2.1
  · exact (standby_exit_revokes_c2 ⟨[(1, ⟨.standby_master, []⟩)], [(7, 1)],
      [], -1, false, 8⟩ 1 ⟨.standby_master, []⟩ .go 7 (by decide) (by decide)
      (by decide) (by decide) (by decide)).2.2 "id" "Rx"

/-- C10: a standby→standby transition on one channel revokes nothing and
issues a fresh request, so the old and the new request id are both
outstanding for that channel, and a confirmation for either appends the
confirming receiver's name to that channel's list. -/
theorem standby_to_standby_c10 (st : TxState) (c : Nat) (ch : Chan)
    (s' : Status) (r : Nat)
    (hch : lookupChan st.channels c = some ch)
    (hold : ch.status.isStandby = true)
    (hnew : s'.isStandby = true)
    (hres : resolvePending st.pending r = some c)
    (hfresh : ∀ p ∈ st.pending, p.1 < st.nextReq) :
    resolvePending (handle_status_change st c s').st.pending r = some c ∧
    resolvePending (handle_status_change st c s').st.pending st.nextReq =
      some c ∧
    r ≠ st.nextReq ∧
    (∀ i1 i2 n1 n2 : String, ∃ l,
      confirmedOf (on_confirmation_received (on_confirmation_received
        (handle_status_change st c s').st ⟨r, i1, n1⟩)
        ⟨st.nextReq, i2, n2⟩) c = some l ∧ n1 ∈ l ∧ n2 ∈ l) := by
  have hrne : r ≠ st.nextReq := by
    have := hfresh _ (resolvePending_mem_of_some hres)
    omega
  have hpend : (handle_status_change st c s').st.pending =
      st.pending ++ [(st.nextReq, c)] := by
    rw [hsc_pending s' hch, hold, hnew]
    simp
  have hres1 : resolvePending (handle_status_change st c s').st.pending r =
      some c := by
    rw [hpend]
    exact resolvePending_append_left _ hres
  have hres2 : resolvePending (handle_status_change st c s').st.pending
      st.nextReq = some c := by
    rw [hpend, resolvePending_append_right _
      (resolvePending_none_of_forall (fun p hp => by
        have := hfresh p hp
        omega))]
    rw [resolvePending_cons, if_pos rfl]
  refine ⟨hres1, hres2, hrne, ?_⟩
  intro i1 i2 n1 n2
  have hch1 : lookupChan (handle_status_change st c s').st.channels c =
      some { ch with status := s' } := hsc_lookup_self s' hch
  rw [onconf_eq hres1 hch1]
  dsimp only
  have hch2 : lookupChan (updChan (handle_status_change st c s').st.channels
      c (fun x => { x with confirmed :=
        if n1 ∈ x.confirmed then x.confirmed
        else x.confirmed ++ [n1] })) c =
      some { ch with status := s', confirmed :=
        if n1 ∈ ch.confirmed then ch.confirmed
        else ch.confirmed ++ [n1] } := by
    rw [lookupChan_updChan, if_pos rfl, hch1]
    rfl
  have hres2' : resolvePending ({ (handle_status_change st c s').st with
      channels := updChan (handle_status_change st c s').st.channels c
        (fun x => { x with confirmed :=
          if n1 ∈ x.confirmed then x.confirmed
          else x.confirmed ++ [n1] }) } : TxState).pending st.nextReq =
      some c := hres2
  rw [onconf_eq hres2' hch2]
  dsimp only
  refine ⟨if n2 ∈ (if n1 ∈ ch.confirmed then ch.confirmed
      else ch.confirmed ++ [n1]) then
        (if n1 ∈ ch.confirmed then ch.confirmed else ch.confirmed ++ [n1])
      else (if n1 ∈ ch.confirmed then ch.confirmed
        else ch.confirmed ++ [n1]) ++ [n2], ?_, ?_, ?_⟩
  · rw [confirmedOf, lookupChan_updChan, if_pos rfl, hch2]
    rfl
  · exact mem_appendIfAbsent_of_mem n2 (mem_appendIfAbsent n1 ch.confirmed)
  · exact mem_appendIfAbsent n2 _

/-- Witness for C10: channel 1 moves `StandbyMaster → StandbySolo` with
request 3 outstanding; both 3 and the fresh request 4 resolve, and two
different receivers' confirmations both land in channel 1's list. -/
theorem standby_to_standby_c10_witness :
    resolvePending (handle_status_change ⟨[(1, ⟨.standby_master, []⟩)],
      [(3, 1)], [], -1, false, 4⟩ 1 .standby_solo).st.pending 3 = some 1 ∧
    resolvePending (handle_status_change ⟨[(1, ⟨.standby_master, []⟩)],
      [(3, 1)], [], -1, false, 4⟩ 1 .standby_solo).st.pending 4 = some 1 ∧
    (∃ l, confirmedOf (on_confirmation_received (on_confirmation_received
      (handle_status_change ⟨[(1, ⟨.standby_master, []⟩)], [(3, 1)], [], -1,
        false, 4⟩ 1 .standby_solo).st ⟨3, "ia", "RxA"⟩)
      ⟨4, "ib", "RxB"⟩) 1 = some l ∧ "RxA" ∈ l ∧ "RxB" ∈ l) := by
  refine ⟨?_, ?_, ?_⟩
  · exact (standby_to_standby_c10 ⟨[(1, ⟨.standby_master, []⟩)], [(3, 1)],
      [], -1, false, 4⟩ 1 ⟨.standby_master, []⟩ .standby_solo 3 (by decide)
      (by decide) (by decide) (by decide) (by decide)).1
  · exact (standby_to_standby_c10 ⟨[(1, ⟨.standby_master, []⟩)], [(3, 1)],
      [], -1, false, 4⟩ 1 ⟨.standby_master, []⟩ .standby_solo 3 (by decide)
      (by decide) (by decide) (by decide) (by decide)).2.1
  · exact (standby_to_standby_c10 ⟨[(1, ⟨.standby_master, []⟩)], [(3, 1)],
      [], -1, false, 4⟩ 1 ⟨.standby_master, []⟩ .standby_solo 3 (by decide)
      (by decide) (by decide) (by decide) (by decide)).2.2.2 "ia" "ib"
      "RxA" "RxB"

/-- C4: entering `Go` registers a one-shot 5000 ms revert for that channel;
at fire time the revert applies only if the status is still `Go` — then it
clears the confirmed-subscriber list and performs `Go → Idle` through
`handle_status_change`, publishing one status message — while a channel
that meanwhile became `StandbyMaster` is left completely untouched by the
stale timer. -/
theorem revert_scheduler_c4 (st : TxState) (c : Nat) (ch : Chan)
    (hch : lookupChan st.channels c = some ch) :
    (handle_status_change st c .go).timers = [(c, GO_DURATION_MS)] ∧
    (ch.status = .go →
      statusOf (revert_go_to_idle st c).st c = some .idle ∧
      confirmedOf (revert_go_to_idle st c).st c = some [] ∧
      (revert_go_to_idle st c).pubs = [⟨c, .idle, none, cueLabelOf st⟩]) ∧
    (ch.status = .standby_master →
      revert_go_to_idle st c = ⟨st, [], []⟩) := by
  refine ⟨?_, ?_, ?_⟩
  · rw [hsc_timers .go hch]
    rfl
  · intro hgo
    have hguard : (lookupChan st.channels c).map (·.status) = some .go := by
      rw [hch]
      simp [hgo]
    have hch1 : lookupChan
        (updChan st.channels c fun x => { x with confirmed := [] }) c =
        some { ch with confirmed := [] } := by
      rw [lookupChan_updChan, if_pos rfl, hch]
      rfl
    refine ⟨?_, ?_, ?_⟩ <;>
      simp only [revert_go_to_idle, if_pos hguard, statusOf, confirmedOf]
    · rw [hsc_lookup_self .idle hch1]
      rfl
    · rw [hsc_lookup_self .idle hch1]
      rfl
    · rw [hsc_pubs .idle hch1]
      rfl
  · intro hsm
    have hguard : ¬(lookupChan st.channels c).map (·.status) = some .go := by
      rw [hch]
      simp [hsm]
    simp only [revert_go_to_idle, if_neg hguard]

/-- Witness for C4: firing `go` on channel 1 schedules `(1, 5000)`; a revert
with the channel still `Go` yields `Idle` with an empty subscriber list and
one publish; a revert finding `StandbyMaster` changes nothing. -/
theorem revert_scheduler_c4_witness :
    (handle_status_change ⟨[(1, ⟨.standby_master, ["Rx"]⟩)], [], [], -1,
      false, 0⟩ 1 .go).timers = [(1, GO_DURATION_MS)] ∧
    statusOf (revert_go_to_idle ⟨[(1, ⟨.go, ["Rx"]⟩)], [], [], -1, false,
      0⟩ 1).st 1 = some .idle ∧
    confirmedOf (revert_go_to_idle ⟨[(1, ⟨.go, ["Rx"]⟩)], [], [], -1, false,
      0⟩ 1).st 1 = some [] ∧
    revert_go_to_idle ⟨[(1, ⟨.standby_master, ["Rx"]⟩)], [], [], -1, false,
      0⟩ 1 = ⟨⟨[(1, ⟨.standby_master, ["Rx"]⟩)], [], [], -1, false, 0⟩,
      [], []⟩ := by
  refine ⟨?_, ?_, ?_, ?_⟩
  · exact (revert_scheduler_c4 ⟨[(1, ⟨.standby_master, ["Rx"]⟩)], [], [],
      -1, false, 0⟩ 1 ⟨.standby_master, ["Rx"]⟩ (by decide)).1
  · exact ((revert_scheduler_c4 ⟨[(1, ⟨.go, ["Rx"]⟩)], [], [], -1, false,
      0⟩ 1 ⟨.go, ["Rx"]⟩ (by decide)).2.1 rfl).1
  · exact ((revert_scheduler_c4 ⟨[(1, ⟨.go, ["Rx"]⟩)], [], [], -1, false,
      0⟩ 1 ⟨.go, ["Rx"]⟩ (by decide)).2.1 rfl).2.1
  · exact (revert_scheduler_c4 ⟨[(1, ⟨.standby_master, ["Rx"]⟩)], [], [],
      -1, false, 0⟩ 1 ⟨.standby_master, ["Rx"]⟩ (by decide)).2.2 rfl

/-- C3: with a captured response topic and request id and `isConfirmed`
still false, two confirm presses publish exactly one confirmation, and the
transmitter resolving that single confirmation leaves exactly one entry for
the receiver's name in the channel's confirmed-subscriber list (given the
list held at most one such entry, as dedup-by-name guarantees). -/
theorem confirm_idempotent_c3 (rx : RxState) (t : String) (r : Nat)
    (st : TxState) (c : Nat) (ch : Chan)
    (htop : rx.currentResponseTopic = some t)
    (hreq : rx.currentRequestId = some r)
    (hconf : rx.isConfirmed = false)
    (hres : resolvePending st.pending r = some c)
    (hch : lookupChan st.channels c = some ch)
    (hcount : ch.confirmed.count rx.receiverName ≤ 1) :
    (handle_confirm_press rx).2 ++
      (handle_confirm_press (handle_confirm_press rx).1).2 =
      [⟨r, rx.receiverId, rx.receiverName⟩] ∧
    (∃ l, confirmedOf (on_confirmation_received st
        ⟨r, rx.receiverId, rx.receiverName⟩) c = some l ∧
      l.count rx.receiverName = 1) := by
  constructor
  · simp [handle_confirm_press, htop, hreq, hconf]
  · rw [onconf_eq hres hch]
    refine ⟨if rx.receiverName ∈ ch.confirmed then ch.confirmed
      else ch.confirmed ++ [rx.receiverName], ?_, ?_⟩
    · rw [confirmedOf]
      dsimp only
      rw [lookupChan_updChan, if_pos rfl, hch]
      rfl
    · by_cases hmem : rx.receiverName ∈ ch.confirmed
      · rw [if_pos hmem]
        have h0 : ¬ch.confirmed.count rx.receiverName = 0 := by
          intro h0
          exact absurd (List.count_eq_zero.mp h0) (by simpa using hmem)
        omega
      · rw [if_neg hmem]
        have h0 : ch.confirmed.count rx.receiverName = 0 :=
          List.count_eq_zero.mpr (by simpa using hmem)
        rw [List.count_append, h0]
        simp

/-- Witness for C3: a receiver with request 2 captured presses twice; one
publish results, and the transmitter records "Rx" exactly once. -/
theorem confirm_idempotent_c3_witness :
    (handle_confirm_press ⟨some 2, some "app/confirmations/tx", false, "id",
      "Rx"⟩).2 ++ (handle_confirm_press (handle_confirm_press ⟨some 2,
      some "app/confirmations/tx", false, "id", "Rx"⟩).1).2 =
      [⟨2, "id", "Rx"⟩] ∧
    (∃ l, confirmedOf (on_confirmation_received ⟨[(1, ⟨.standby_master,
      []⟩)], [(2, 1)], [], -1, false, 3⟩ ⟨2, "id", "Rx"⟩) 1 = some l ∧
      l.count "Rx" = 1) := by
  constructor
  · exact (confirm_idempotent_c3 ⟨some 2, some "app/confirmations/tx",
      false, "id", "Rx"⟩ "app/confirmations/tx" 2 ⟨[(1, ⟨.standby_master,
      []⟩)], [(2, 1)], [], -1, false, 3⟩ 1 ⟨.standby_master, []⟩ rfl rfl rfl
      (by decide) (by decide) (by decide)).1
  · exact (confirm_idempotent_c3 ⟨some 2, some "app/confirmations/tx",
      false, "id", "Rx"⟩ "app/confirmations/tx" 2 ⟨[(1, ⟨.standby_master,
      []⟩)], [(2, 1)], [], -1, false, 3⟩ 1 ⟨.standby_master, []⟩ rfl rfl rfl
      (by decide) (by decide) (by decide)).2

/-- C1 (amended): `handle_status_change` never rejects a request — for any
known channel it stores exactly the requested status and publishes exactly
one status message, whatever the previous status was.  Together with the
counterexample this replaces the §4.3 "reject silently" reading: the
transition table lives only in what the intent layer chooses to request,
and `Go → StandbySolo` (solo press during `Go`) as well as `Idle → Go`
(cue GO over an idle channel in the cue) are reachable. -/
theorem status_request_applied_c1_amended (st : TxState) (c : Nat)
    (ch : Chan) (s : Status) (hch : lookupChan st.channels c = some ch) :
    statusOf (handle_status_change st c s).st c = some s ∧
    (handle_status_change st c s).pubs.length = 1 := by
  constructor
  · rw [statusOf, hsc_lookup_self s hch]
    rfl
  · rw [hsc_pubs s hch]
    rfl

/-- Witness for the amended C1: a solo-standby request applied to a channel
currently in `Go` is stored and published. -/
theorem status_request_applied_c1_amended_witness :
    statusOf (handle_status_change ⟨[(1, ⟨.go, []⟩)], [], [], -1, false, 0⟩
      1 .standby_solo).st 1 = some .standby_solo ∧
    (handle_status_change ⟨[(1, ⟨.go, []⟩)], [], [], -1, false, 0⟩
      1 .standby_solo).pubs.length = 1 :=
  status_request_applied_c1_amended ⟨[(1, ⟨.go, []⟩)], [], [], -1, false, 0⟩
    1 ⟨.go, []⟩ .standby_solo (by decide)

/-- Counterexample to C1 as stated: starting from `Idle`, two solo presses
put channel 1 in `Go`, and a third solo press while in `Go` moves it to
`StandbySolo` — with a publish, not a silent rejection — so the observed
transition `Go → StandbySolo` is reachable. -/
theorem go_to_standby_solo_reachable_c1_counterexample :
    statusOf (runIntents ⟨[(1, ⟨.idle, []⟩)], [], [], -1, false, 0⟩
      [.soloStandby 1, .soloStandby 1]) 1 = some .go ∧
    statusOf (runIntents ⟨[(1, ⟨.idle, []⟩)], [], [], -1, false, 0⟩
      [.soloStandby 1, .soloStandby 1, .soloStandby 1]) 1 =
      some .standby_solo ∧
    (intentStep (runIntents ⟨[(1, ⟨.idle, []⟩)], [], [], -1, false, 0⟩
      [.soloStandby 1, .soloStandby 1]) (.soloStandby 1)).pubs ≠ [] := by
  decide

/-- C9 (amended): the arm-cue intent is guarded only by pointer validity —
whenever `current_cue_index` is not −1 and the cue list is non-empty, it
drives `StandbyMaster` for every known channel of the current cue and sets
the armed flag, even when the cue is already armed (a repeated arm is
applied again, republished, rather than rejected). -/
theorem arm_guard_c9_amended (st : TxState) (cue : Cue)
    (h1 : ¬st.currentCueIndex = -1)
    (h2 : ¬st.cues = [])
    (hcue : st.cues.get? st.currentCueIndex.toNat = some cue) :
    (arm_current_cue st).st.isCueArmed = true ∧
    (∀ c ch, lookupChan st.channels c = some ch → c ∈ cue.channelsInCue →
      lookupChan (arm_current_cue st).st.channels c =
        some { ch with status := .standby_master }) := by
  have hguard : ¬(st.currentCueIndex = -1 ∨ st.cues.isEmpty = true) := by
    push_neg
    exact ⟨h1, by simpa using h2⟩
  have harm : arm_current_cue st =
      ⟨{ (driveAll st cue.channelsInCue .standby_master).st with
          isCueArmed := true },
        (driveAll st cue.channelsInCue .standby_master).pubs,
        (driveAll st cue.channelsInCue .standby_master).timers⟩ := by
    simp only [arm_current_cue, if_neg hguard, hcue]
  rw [harm]
  constructor
  · rfl
  · intro c ch hc hm
    dsimp only
    rw [driveAll, drive_fold_lookup .standby_master cue.channelsInCue
      ⟨st, [], []⟩ c ch hc, if_pos hm]

/-- Witness for the amended C9: arming a one-cue list drives channel 1 to
`StandbyMaster` and sets the flag. -/
theorem arm_guard_c9_amended_witness :
    (arm_current_cue ⟨[(1, ⟨.idle, []⟩)], [], [⟨0, 1, "A", [1]⟩], 0, false,
      0⟩).st.isCueArmed = true ∧
    lookupChan (arm_current_cue ⟨[(1, ⟨.idle, []⟩)], [],
      [⟨0, 1, "A", [1]⟩], 0, false, 0⟩).st.channels 1 =
      some ⟨.standby_master, []⟩ := by
  constructor
  · exact (arm_guard_c9_amended ⟨[(1, ⟨.idle, []⟩)], [], [⟨0, 1, "A", [1]⟩],
      0, false, 0⟩ ⟨0, 1, "A", [1]⟩ (by decide)
      (List.cons_ne_nil _ _) rfl).1
  · exact (arm_guard_c9_amended ⟨[(1, ⟨.idle, []⟩)], [], [⟨0, 1, "A", [1]⟩],
      0, false, 0⟩ ⟨0, 1, "A", [1]⟩ (by decide)
      (List.cons_ne_nil _ _) rfl).2 1 ⟨.idle, []⟩ (by decide)
      (by decide)

/-- Counterexample to C9 as stated: with the current cue already armed,
another arm intent is not a no-op — it publishes a status message and
issues a fresh pending request (request 1 joins request 0). -/
theorem arm_when_armed_not_noop_c9_counterexample :
    (⟨[(1, ⟨.standby_master, []⟩)], [(0, 1)], [⟨0, 1, "A", [1]⟩], 0, true,
      1⟩ : TxState).isCueArmed = true ∧
    (arm_current_cue ⟨[(1, ⟨.standby_master, []⟩)], [(0, 1)],
      [⟨0, 1, "A", [1]⟩], 0, true, 1⟩).pubs =
      [⟨1, .standby_master, some 1, some "A"⟩] ∧
    (arm_current_cue ⟨[(1, ⟨.standby_master, []⟩)], [(0, 1)],
      [⟨0, 1, "A", [1]⟩], 0, true, 1⟩).st.pending = [(0, 1), (1, 1)] := by
  refine ⟨rfl, ?_, ?_⟩ <;> decide

/-- C8 (amended): the pointer invariant — `currentCueIndex = −1` exactly
when the cue list is empty, otherwise in range — is established by load
and preserved by next, prev, go and cue edit; but cue add and cue delete
leave the pointer untouched, so it can be −1 on a non-empty list (adding to
an empty list) or out of range (deleting at the end). -/
theorem cue_pointer_c8_amended :
    (∀ chs cs st, cueInv (load_config chs cs st)) ∧
    (∀ st, cueInv st → cueInv (next_cue st)) ∧
    (∀ st, cueInv st → cueInv (prev_cue st)) ∧
    (∀ st, cueInv st → cueInv (go_current_cue st).st) ∧
    (∀ st c, cueInv st → cueInv (cueEdit st c)) ∧
    (∀ st c, (cueAdd st c).currentCueIndex = st.currentCueIndex) ∧
    (∀ st i, (cueDelete st i).currentCueIndex = st.currentCueIndex) :=
  ⟨cueInv_load, fun _ => cueInv_next, fun _ => cueInv_prev,
    fun _ => cueInv_go, fun _ c h => cueEdit_inv c h, fun _ _ => rfl,
    fun _ _ => rfl⟩

/-- Witness for the amended C8: the invariant survives a `next` on a valid
one-cue state. -/
theorem cue_pointer_c8_amended_witness :
    cueInv (next_cue ⟨[], [], [⟨0, 1, "A", []⟩], 0, false, 0⟩) :=
  cue_pointer_c8_amended.2.1 ⟨[], [], [⟨0, 1, "A", []⟩], 0, false, 0⟩
    ⟨⟨fun h => absurd h (by decide), fun h => absurd h (by decide)⟩,
      fun _ => by decide⟩

/-- Counterexample to C8 as stated: adding a cue to an empty show leaves
`currentCueIndex = −1` although the cue list is now non-empty, so after the
"cue add" sequencer operation the claimed invariant fails. -/
theorem cue_add_breaks_pointer_c8_counterexample :
    (cueAdd ⟨[], [], [], -1, false, 0⟩ ⟨0, 1, "A", []⟩).currentCueIndex =
      -1 ∧
    (cueAdd ⟨[], [], [], -1, false, 0⟩ ⟨0, 1, "A", []⟩).cues ≠ [] := by
  constructor
  · rfl
  · decide

/-- C7: the cue list is sorted ascending by `cueNumberFloat` after load and
after every cue mutation; `next` always clears the armed flag on a
non-empty list; and for cues keyed `[3, 1, 2.5]` the traversal starting
after load visits `1, 2.5, 3` and then wraps back to `1`. -/
theorem cue_order_c7 :
    (∀ chs cs st, cuesSorted (load_config chs cs st).cues) ∧
    (∀ st c, cuesSorted (cueAdd st c).cues) ∧
    (∀ st c, cuesSorted (cueEdit st c).cues) ∧
    (∀ st i, cuesSorted (cueDelete st i).cues) ∧
    (∀ st, st.cues ≠ [] → (next_cue st).isCueArmed = false) ∧
    (currentKey (load_config [] [⟨1, 3, "c3", []⟩, ⟨2, 1, "c1", []⟩,
        ⟨3, 2.5, "c25", []⟩] ⟨[], [], [], -1, false, 0⟩) = some 1 ∧
      currentKey (next_cue (load_config [] [⟨1, 3, "c3", []⟩,
        ⟨2, 1, "c1", []⟩, ⟨3, 2.5, "c25", []⟩] ⟨[], [], [], -1, false,
        0⟩)) = some 2.5 ∧
      currentKey (next_cue (next_cue (load_config [] [⟨1, 3, "c3", []⟩,
        ⟨2, 1, "c1", []⟩, ⟨3, 2.5, "c25", []⟩] ⟨[], [], [], -1, false,
        0⟩))) = some 3 ∧
      currentKey (next_cue (next_cue (next_cue (load_config []
        [⟨1, 3, "c3", []⟩, ⟨2, 1, "c1", []⟩, ⟨3, 2.5, "c25", []⟩]
        ⟨[], [], [], -1, false, 0⟩)))) = some 1) := by
  refine ⟨fun chs cs st => sortCues_sorted cs,
    fun st c => sortCues_sorted _, fun st c => sortCues_sorted _,
    fun st i => sortCues_sorted _, ?_, ?_⟩
  · intro st hne
    have hlen : ¬st.cues.length = 0 :=
      fun h => hne (List.length_eq_zero.mp h)
    unfold next_cue
    rw [if_neg hlen]
  · have h25 : (2.5 : ℚ) = mkRat 5 2 := by norm_num
    rw [h25]
    decide

/-- Witness for C7: on a valid one-cue state, `next` clears the armed
flag. -/
theorem cue_order_c7_witness :
    (next_cue ⟨[], [], [⟨0, 1, "A", []⟩], 0, true, 0⟩).isCueArmed = false :=
  cue_order_c7.2.2.2.2.1 ⟨[], [], [⟨0, 1, "A", []⟩], 0, true, 0⟩
    (List.cons_ne_nil _ _)

end CueLight
